import Mathlib

/-!
Shallow embedding of `src/main.py`: an EAN/GTIN-13 validator fed by a
streaming, quote-aware comma tokenizer over standard input.

Python strings are modelled as `String` (rows of fields) and `List Char`
(character streams and code candidates).  Machine behaviour that the claims
depend on — truthiness of strings (`if current_field:`), `str.zfill` sign
handling, `str.strip`, `str.replace('"','')`, tuple returns — is embedded
explicitly.  `process_stdin` returns the single printed line together with
the process exit status (always 0: both the short-circuit path, which calls
`sys.exit(0)`, and the normal path terminate with success).
-/

set_option autoImplicit false

namespace EanMain

/-- Embeds `calculate_ean_checksum` (src/main.py lines 3-17): even 0-based
positions weigh 1, odd positions weigh 3; the check digit is 0 when the
weighted sum is divisible by 10 and `10 - (sum % 10)` otherwise.  The Python
`assert len(digits) == 12` is a caller precondition, not part of the value. -/
def calculate_ean_checksum (digits : List Nat) : Nat :=
  let total_sum :=
    (digits.enum.map (fun p => if p.1 % 2 = 0 then p.2 * 1 else p.2 * 3)).sum
  let r := total_sum % 10
  if r = 0 then 0 else 10 - r

/-- Characters stripped by Python `str.strip()` on ASCII input. -/
def isPySpace (c : Char) : Bool :=
  c = ' ' || c = '\t' || c = '\n' || c = '\r' || c = '\x0b' || c = '\x0c'

/-- Python `str.strip()`: drop leading and trailing whitespace. -/
def pyStrip (cs : List Char) : List Char :=
  ((cs.dropWhile isPySpace).reverse.dropWhile isPySpace).reverse

/-- Python `str.strip()` at the `String` level. -/
def pyStripS (s : String) : String :=
  String.mk (pyStrip s.data)

/-- Python `str.zfill w`: left-pad with `'0'` to width `w`, keeping a leading
sign character (if any) in front of the inserted zeros. -/
def zfill (cs : List Char) (w : Nat) : List Char :=
  match cs with
  | [] => List.replicate w '0'
  | c :: rest =>
    if c = '+' ∨ c = '-' then
      c :: (List.replicate (w - cs.length) '0' ++ rest)
    else
      List.replicate (w - cs.length) '0' ++ cs

/-- Embeds the recursion of `ean_is_valid` (src/main.py lines 20-45) with an
explicit fuel argument; the recursion depth of the source is at most two
(pad-to-13 or trim-to-13, then the exact-13 case), so fuel 3 realises it
exactly (`ean_is_valid` below).  Branches in source order: reject length < 8;
left-zero-pad below 13 and revalidate; above 13 require every excess leading
character to be `'0'` (Python `set(prefix) == {"0"}`: nonempty and all zeros)
and revalidate the last 13; at exactly 13 require all digits and compare the
last digit with the computed checksum of the first 12. -/
def eanValidF : Nat → List Char → Bool
  | 0, _ => false
  | fuel + 1, cs =>
    if cs.length < 8 then false
    else if cs.length < 13 then
      eanValidF fuel (zfill cs 13)
    else if 13 < cs.length then
      let lead := cs.take (cs.length - 13)
      let core := cs.drop (cs.length - 13)
      if !lead.isEmpty && lead.all (fun c => c = '0') then eanValidF fuel core
      else false
    else
      if !(cs.all Char.isDigit) then false
      else
        let digits := cs.map (fun c => c.toNat - '0'.toNat)
        let checksum := digits.getLastD 0
        checksum = calculate_ean_checksum digits.dropLast

/-- Embeds `ean_is_valid` (src/main.py lines 20-45). -/
def ean_is_valid (cs : List Char) : Bool :=
  eanValidF 3 cs

/-- Result of the header-scanning loop of `get_ean_column_index`:
either an early return on a duplicate match, or the loop ran to the end
with the (optional) index of the unique match found. -/
inductive EanIdxRes where
  | dup
  | done (found : Option Nat)
deriving DecidableEq

/-- The `for index, column_name in enumerate(fields)` loop of
`get_ean_column_index` (src/main.py lines 71-78): remember the first field
whose stripped text equals the column name, return early on a second one. -/
def eanIdxLoop : List String → String → Nat → Option Nat → EanIdxRes
  | [], _, _, found => .done found
  | f :: rest, name, i, found =>
    if pyStripS f ≠ name then eanIdxLoop rest name (i + 1) found
    else
      match found with
      | none => eanIdxLoop rest name (i + 1) (some i)
      | some _ => .dup

/-- Embeds `get_ean_column_index` (src/main.py lines 69-85).  Returns the
Python pair `(index-or-None, initial valid count)`.  The `delimiter`
argument is accepted and ignored, exactly as in the source.  The source's
`assert len(fields) > 0` is a caller guarantee; `fields[0]` is modelled by
`headD` (and an empty first row never reaches this call in `process_stdin`). -/
def get_ean_column_index (fields : List String) (delimiter : String)
    (ean_column_name : String) : Option Nat × Nat :=
  match eanIdxLoop fields ean_column_name 0 none with
  | .dup => (none, 0)
  | .done (some i) => (some i, 0)
  | .done none =>
    if ean_is_valid (pyStripS (fields.headD "")).data then (some 0, 1)
    else (none, 0)

/-- Embeds `line_is_valid` (src/main.py lines 106-110): out-of-range column
index is invalid; otherwise strip the field, delete every `'"'`, validate.
The `delimiter` argument is accepted and ignored, as in the source. -/
def line_is_valid (fields : List String) (delimiter : String)
    (ean_column_index : Nat) : Bool :=
  if fields.length ≤ ean_column_index then false
  else
    ean_is_valid
      ((pyStripS (fields.getD ean_column_index "")).data.filter
        (fun c => c ≠ '"'))

/-- One `__next__` step of `StdinLineIterator` either emits a row and leaves
the rest of the stream (with the quote flag), or hits end of stream with the
fields accumulated so far. -/
inductive NextRes where
  | row (fields : List String) (rest : List Char) (q : Bool)
  | eof (fields : List String) (q : Bool)
deriving DecidableEq

/-- Python `if current_field: accumulated_fields.append(current_field)`:
an empty accumulated field is suppressed, never appended. -/
def appendIf (acc : List String) (cur : String) : List String :=
  if cur ≠ "" then acc ++ [cur] else acc

/-- Embeds the character loop of `StdinLineIterator.__next__`
(src/main.py lines 123-151) over the flat character stream (Python's
line-by-line outer loop is transparent to it: a `'\n'` is always the last
character of its line).  Outside quotes: `'\n'` closes the row, `','` closes
the field, `'"'` enters quoting and is kept in the field; inside quotes every
character (delimiters and newlines included) is appended and `'"'` leaves
quoting.  At end of stream the accumulated fields are handed back. -/
def nextRowAux : List Char → Bool → List String → String → NextRes
  | [], q, acc, cur => .eof (appendIf acc cur) q
  | c :: cs, q, acc, cur =>
    if q then
      if c = '"' then nextRowAux cs false acc (cur.push c)
      else nextRowAux cs true acc (cur.push c)
    else
      if c = '\n' then .row (appendIf acc cur) cs false
      else if c = ',' then nextRowAux cs false (appendIf acc cur) ""
      else if c = '"' then nextRowAux cs true acc (cur.push c)
      else nextRowAux cs false acc (cur.push c)

/-- The full row sequence produced by repeated `__next__` calls, with fuel
(each emitted row before end of stream consumes at least the `'\n'`
character, so `length + 1` fuel realises the iterator exactly).  On end of
stream with `last_line` still unset the pending row is emitted once and the
flag set; the following call raises `StopIteration` (the list ends). -/
def rowsAuxF : Nat → List Char → Bool → Bool → List (List String)
  | 0, _, _, _ => []
  | fuel + 1, cs, q, ll =>
    match nextRowAux cs q [] "" with
    | .row f rest q2 => f :: rowsAuxF fuel rest q2 ll
    | .eof f _ => if ll then [] else [f]

/-- All rows of `StdinLineIterator` over a character stream, from the initial
state (`in_double_quotes = False`, `last_line = False`). -/
def rows (input : List Char) : List (List String) :=
  rowsAuxF (input.length + 1) input false false

/-- The summary line `f"{valid_count} {invalid_count}"`. -/
def countsOut (v i : Nat) : String :=
  toString v ++ " " ++ toString i

/-- The classification phase of the `process_stdin` loop (src/main.py lines
164-179) after the column index is resolved: skip empty rows, count each
remaining row valid or invalid via `line_is_valid`, and print the counts at
stream end. -/
def classifyLoop : List (List String) → String → Nat → Nat → Nat → String
  | [], _, _, v, i => countsOut v i
  | r :: rest, d, idx, v, i =>
    if r.isEmpty then classifyLoop rest d idx v i
    else if line_is_valid r d idx then classifyLoop rest d idx (v + 1) i
    else classifyLoop rest d idx v (i + 1)

/-- The header phase of the `process_stdin` loop: skip empty rows; on the
first nonempty row resolve the column index, short-circuiting with
`print("0 0"); sys.exit(0)` when it is absent; if the stream ends first,
print the zero counts normally.  The second component is the exit status. -/
def headerLoop : List (List String) → String → String → String × Nat
  | [], _, _ => (countsOut 0 0, 0)
  | r :: rest, d, name =>
    if r.isEmpty then headerLoop rest d name
    else
      match get_ean_column_index r d name with
      | (none, _) => ("0 0", 0)
      | (some idx, v0) => (classifyLoop rest d idx v0 0, 0)

/-- Embeds `process_stdin` (src/main.py lines 153-181) over a finite input
stream: the printed summary line and the exit status. -/
def process_stdin (delimiter : String) (ean_column_name : String)
    (input : List Char) : String × Nat :=
  headerLoop (rows input) delimiter ean_column_name

/-- The character of a decimal digit, `chr(ord('0') + n)`. -/
def digitChar (n : Nat) : Char :=
  Char.ofNat ('0'.toNat + n)

/-! ### Helper lemmas -/

theorem calculate_ean_checksum_le_nine (d : List Nat) :
    calculate_ean_checksum d ≤ 9 := by
  have h : ∀ t : Nat, (if t % 10 = 0 then 0 else 10 - t % 10) ≤ 9 := by
    intro t; split <;> omega
  exact h _

theorem eanValidF_of_len13 (f : Nat) (cs : List Char) (h : cs.length = 13) :
    eanValidF (f + 1) cs =
      (if !(cs.all Char.isDigit) then false
       else
        let digits := cs.map (fun c => c.toNat - '0'.toNat)
        decide (digits.getLastD 0 = calculate_ean_checksum digits.dropLast)) := by
  simp only [eanValidF, h]
  norm_num

theorem digitChar_isDigit {n : Nat} (h : n ≤ 9) :
    (digitChar n).isDigit = true := by
  interval_cases n <;> decide

theorem digitChar_toNat {n : Nat} (h : n ≤ 9) :
    (digitChar n).toNat - '0'.toNat = n := by
  interval_cases n <;> decide

theorem eanIdxLoop_no_match (fields : List String) (name : String) :
    ∀ (i : Nat) (found : Option Nat), (∀ f ∈ fields, pyStripS f ≠ name) →
      eanIdxLoop fields name i found = .done found := by
  induction fields with
  | nil => intro i found _; rfl
  | cons f rest ih =>
    intro i found h
    have hf : pyStripS f ≠ name := h f (List.mem_cons_self f rest)
    simp only [eanIdxLoop, if_pos hf]
    exact ih (i + 1) found (fun g hg => h g (List.mem_cons_of_mem f hg))

theorem eanIdxLoop_dup_of_found (fields : List String) (name : String) :
    ∀ (i k : Nat), (∃ f ∈ fields, pyStripS f = name) →
      eanIdxLoop fields name i (some k) = .dup := by
  induction fields with
  | nil => intro i k h; simp at h
  | cons f rest ih =>
    intro i k h
    by_cases hf : pyStripS f = name
    · simp [eanIdxLoop, hf]
    · simp only [eanIdxLoop, if_pos hf]
      apply ih
      rcases h with ⟨g, hg, hgs⟩
      rcases List.mem_cons.1 hg with rfl | hg'
      · exact absurd hgs hf
      · exact ⟨g, hg', hgs⟩

theorem eanIdxLoop_dup_of_two (fields : List String) (name : String) :
    ∀ i : Nat, 2 ≤ fields.countP (fun f => pyStripS f == name) →
      eanIdxLoop fields name i none = .dup := by
  induction fields with
  | nil => intro i h; simp at h
  | cons f rest ih =>
    intro i h
    by_cases hf : pyStripS f = name
    · simp only [eanIdxLoop, if_neg (not_not_intro hf)]
      apply eanIdxLoop_dup_of_found
      have hc : rest.countP (fun f => pyStripS f == name) + 1 =
          (f :: rest).countP (fun f => pyStripS f == name) :=
        (List.countP_cons_of_pos _ rest (by simpa using hf)).symm
      have hpos : 0 < rest.countP (fun f => pyStripS f == name) := by omega
      rcases List.countP_pos_iff.1 hpos with ⟨g, hg, hgs⟩
      exact ⟨g, hg, by simpa using hgs⟩
    · simp only [eanIdxLoop, if_pos hf]
      apply ih
      have hc : (f :: rest).countP (fun f => pyStripS f == name) =
          rest.countP (fun f => pyStripS f == name) :=
        List.countP_cons_of_neg _ rest (by simpa using hf)
      omega

theorem line_is_valid_delim_irrelevant (fields : List String)
    (d₁ d₂ : String) (i : Nat) :
    line_is_valid fields d₁ i = line_is_valid fields d₂ i := rfl

theorem get_ean_column_index_delim_irrelevant (fields : List String)
    (d₁ d₂ name : String) :
    get_ean_column_index fields d₁ name = get_ean_column_index fields d₂ name := rfl

theorem classifyLoop_delim_irrelevant (rws : List (List String)) :
    ∀ (d₁ d₂ : String) (idx v i : Nat),
      classifyLoop rws d₁ idx v i = classifyLoop rws d₂ idx v i := by
  induction rws with
  | nil => intros; rfl
  | cons r rest ih =>
    intro d₁ d₂ idx v i
    simp only [classifyLoop, line_is_valid_delim_irrelevant r d₁ d₂ idx]
    by_cases h1 : r.isEmpty
    · simp only [if_pos h1]; exact ih _ _ _ _ _
    · simp only [if_neg h1]
      by_cases h2 : line_is_valid r d₂ idx
      · simp only [if_pos h2]; exact ih _ _ _ _ _
      · simp only [if_neg h2]; exact ih _ _ _ _ _

theorem headerLoop_delim_irrelevant (rws : List (List String)) :
    ∀ (d₁ d₂ name : String),
      headerLoop rws d₁ name = headerLoop rws d₂ name := by
  induction rws with
  | nil => intros; rfl
  | cons r rest ih =>
    intro d₁ d₂ name
    simp only [headerLoop, get_ean_column_index_delim_irrelevant r d₁ d₂ name]
    by_cases h1 : r.isEmpty
    · simp only [if_pos h1]; exact ih _ _ _
    · simp only [if_neg h1]
      cases get_ean_column_index r d₂ name with
      | mk fst snd =>
        cases fst with
        | none => rfl
        | some idx => simp [classifyLoop_delim_irrelevant rest d₁ d₂ idx snd 0]

/-- Fields of the row carried by a `NextRes` outcome are all nonempty. -/
def resFieldsNE : NextRes → Prop
  | .row fs _ _ => ∀ s ∈ fs, s ≠ ""
  | .eof fs _ => ∀ s ∈ fs, s ≠ ""

theorem appendIf_ne (acc : List String) (cur : String)
    (h : ∀ f ∈ acc, f ≠ "") : ∀ f ∈ appendIf acc cur, f ≠ "" := by
  unfold appendIf
  split
  · rename_i hcur
    intro f hf
    rcases List.mem_append.1 hf with hfa | hfc
    · exact h f hfa
    · rw [List.mem_singleton.1 hfc]
      exact hcur
  · exact h

theorem nextRowAux_ne (cs : List Char) :
    ∀ (q : Bool) (acc : List String) (cur : String),
      (∀ f ∈ acc, f ≠ "") → resFieldsNE (nextRowAux cs q acc cur) := by
  induction cs with
  | nil =>
    intro q acc cur h
    simpa [nextRowAux, resFieldsNE] using appendIf_ne acc cur h
  | cons c cs ih =>
    intro q acc cur h
    cases q with
    | true =>
      by_cases hc : c = '"'
      · simpa [nextRowAux, hc] using ih false acc (cur.push c) h
      · simpa [nextRowAux, hc] using ih true acc (cur.push c) h
    | false =>
      by_cases h1 : c = '\n'
      · simpa [nextRowAux, h1, resFieldsNE] using appendIf_ne acc cur h
      · by_cases h2 : c = ','
        · simpa [nextRowAux, h1, h2] using
            ih false (appendIf acc cur) "" (appendIf_ne acc cur h)
        · by_cases h3 : c = '"'
          · simpa [nextRowAux, h1, h2, h3] using ih true acc (cur.push c) h
          · simpa [nextRowAux, h1, h2, h3] using ih false acc (cur.push c) h

theorem rowsAuxF_ne (fuel : Nat) :
    ∀ (cs : List Char) (q ll : Bool) (r : List String),
      r ∈ rowsAuxF fuel cs q ll → ∀ f ∈ r, f ≠ "" := by
  induction fuel with
  | zero => intro cs q ll r hr; simp [rowsAuxF] at hr
  | succ fuel ih =>
    intro cs q ll r hr
    have hne := nextRowAux_ne cs q [] "" (by simp)
    simp only [rowsAuxF] at hr
    cases hnr : nextRowAux cs q [] "" with
    | row fs rest q2 =>
      rw [hnr] at hne
      simp only [hnr] at hr
      rcases List.mem_cons.1 hr with rfl | hr'
      · simpa [resFieldsNE] using hne
      · exact ih rest q2 ll r hr'
    | eof fs q2 =>
      rw [hnr] at hne
      simp only [hnr] at hr
      cases ll with
      | true => simp at hr
      | false =>
        simp at hr
        rw [hr]
        simpa [resFieldsNE] using hne

/-! ### The claims -/

/-- Claim C1 (counterexample): the source has no `Exit` sentinel.  On the
stream `ean\nExit\n4065418448246\n` the claim predicts that processing stops
at the `Exit` line with no rows counted, printing `0 0`; the code instead
classifies the `Exit` row (invalid) and keeps reading, counting the later
valid row, printing `1 1`. -/
theorem exit_sentinel_counterexample :
    process_stdin "," "ean" "ean\nExit\n4065418448246\n".toList = ("1 1", 0) ∧
      process_stdin "," "ean" "ean\nExit\n4065418448246\n".toList ≠ ("0 0", 0) := by
  exact ⟨by decide, by decide⟩

/-- Claim C1 (amended): there is no early-termination sentinel.  A line whose
entire content is `Exit` is tokenized and classified like any other row — it
is counted invalid (`Exit` is not a valid EAN) — and later lines are still
read, classified, and included in the printed counts. -/
theorem exit_line_is_ordinary_row :
    rows "ean\nExit\n4065418448246\n".toList =
        [["ean"], ["Exit"], ["4065418448246"], []] ∧
      line_is_valid ["Exit"] "," 0 = false ∧
      process_stdin "," "ean" "ean\nExit\n4065418448246\n".toList = ("1 1", 0) := by
  exact ⟨by decide, by decide, by decide⟩

/-- Claim C2 (counterexample): the configured delimiter is not honoured.
With delimiter `;` the stream `4065418448246;x\n` is kept as the single field
`4065418448246;x` (no split at `;`, so the fallback sees an invalid code and
the run short-circuits to `0 0`), while `4065418448246,x\n` is still split at
`,` and yields `1 0` — refuting the claim at the configured delimiter `;`. -/
theorem configured_delimiter_counterexample :
    rows "4065418448246;x\n".toList = [["4065418448246;x"], []] ∧
      process_stdin ";" "ean" "4065418448246;x\n".toList = ("0 0", 0) ∧
      process_stdin ";" "ean" "4065418448246,x\n".toList = ("1 0", 0) := by
  exact ⟨by decide, by decide, by decide⟩

/-- Claim C2 (amended): the delimiter supplied as configuration to
`process_stdin` is ignored — the result is the same for every two configured
delimiters — and the tokenizer closes fields exactly at `,` outside quoted
spans (here `;` does not split while `,` does). -/
theorem delimiter_argument_ignored :
    (∀ (d₁ d₂ name : String) (input : List Char),
        process_stdin d₁ name input = process_stdin d₂ name input) ∧
      rows "a;b,c\n".toList = [["a;b", "c"], []] := by
  constructor
  · intro d₁ d₂ name input
    unfold process_stdin
    exact headerLoop_delim_irrelevant (rows input) d₁ d₂ name
  · decide

/-- Claim C3: every candidate shorter than 8 characters is invalid
immediately; in particular `"00"` is rejected, never validated through
zero-padding. -/
theorem short_code_invalid :
    (∀ cs : List Char, cs.length < 8 → ean_is_valid cs = false) ∧
    ean_is_valid "00".toList = false := by
  constructor
  · intro cs h
    show eanValidF (2 + 1) cs = false
    simp [eanValidF, h]
  · decide

theorem short_code_invalid_witness :
    "00".toList.length < 8 ∧ ean_is_valid "00".toList = false :=
  ⟨by decide, short_code_invalid.1 "00".toList (by decide)⟩

/-- Claim C4: for every sequence of exactly 12 decimal digits, the computed
check digit is a single digit 0-9, and appending it to the 12 digits gives a
13-character code accepted by `ean_is_valid`. -/
theorem checksum_append_valid (d : List Nat) (hlen : d.length = 12)
    (hdig : ∀ x ∈ d, x ≤ 9) :
    calculate_ean_checksum d ≤ 9 ∧
      ean_is_valid
        (d.map digitChar ++ [digitChar (calculate_ean_checksum d)]) = true := by
  refine ⟨calculate_ean_checksum_le_nine d, ?_⟩
  have hk9 : calculate_ean_checksum d ≤ 9 := calculate_ean_checksum_le_nine d
  have hslen :
      (d.map digitChar ++ [digitChar (calculate_ean_checksum d)]).length = 13 := by
    simp [hlen]
  show eanValidF (2 + 1) (d.map digitChar ++ [digitChar (calculate_ean_checksum d)]) = true
  rw [eanValidF_of_len13 2 _ hslen]
  have hall :
      (d.map digitChar ++ [digitChar (calculate_ean_checksum d)]).all
        Char.isDigit = true := by
    rw [List.all_eq_true]
    intro c hc
    rcases List.mem_append.1 hc with hcm | hcs
    · rcases List.mem_map.1 hcm with ⟨x, hx, rfl⟩
      exact digitChar_isDigit (hdig x hx)
    · rw [List.mem_singleton.1 hcs]
      exact digitChar_isDigit hk9
  have hmap :
      (d.map digitChar ++ [digitChar (calculate_ean_checksum d)]).map
          (fun c => c.toNat - '0'.toNat) =
        d ++ [calculate_ean_checksum d] := by
    rw [List.map_append]
    congr 1
    · rw [List.map_map]
      have he : d.map ((fun c => c.toNat - '0'.toNat) ∘ digitChar) = d.map id :=
        List.map_congr_left (fun x hx => digitChar_toNat (hdig x hx))
      rw [he, List.map_id]
    · simp only [List.map_cons, List.map_nil, List.cons.injEq, and_true]
      exact digitChar_toNat hk9
  simp only [hall, Bool.not_true, Bool.false_eq_true, if_false, hmap,
    List.getLastD_concat, List.dropLast_concat, decide_eq_true_eq]

theorem checksum_append_valid_witness :
    calculate_ean_checksum [4, 0, 6, 5, 4, 1, 8, 4, 4, 8, 2, 4] ≤ 9 ∧
      ean_is_valid
        (([4, 0, 6, 5, 4, 1, 8, 4, 4, 8, 2, 4].map digitChar) ++
          [digitChar (calculate_ean_checksum
            [4, 0, 6, 5, 4, 1, 8, 4, 4, 8, 2, 4])]) = true :=
  checksum_append_valid [4, 0, 6, 5, 4, 1, 8, 4, 4, 8, 2, 4]
    (by decide) (by decide)

/-- Claim C5: prepending any positive number of `'0'` characters to a valid
13-character all-digit code still validates. -/
theorem leading_zeros_preserve_validity (c : List Char) (hlen : c.length = 13)
    (hdig : c.all Char.isDigit = true) (hval : ean_is_valid c = true) :
    ∀ n : Nat, 1 ≤ n → ean_is_valid (List.replicate n '0' ++ c) = true := by
  intro n hn
  have hlen2 : (List.replicate n '0' ++ c).length = n + 13 := by simp [hlen]
  have e1 : ¬ ((List.replicate n '0' ++ c).length < 8) := by rw [hlen2]; omega
  have e2 : ¬ ((List.replicate n '0' ++ c).length < 13) := by rw [hlen2]; omega
  have e3 : 13 < (List.replicate n '0' ++ c).length := by rw [hlen2]; omega
  have e4 : (List.replicate n '0' ++ c).length - 13 = n := by rw [hlen2]; omega
  have e5 : List.take n (List.replicate n '0' ++ c) = List.replicate n '0' :=
    List.take_left' (List.length_replicate n '0')
  have e6 : List.drop n (List.replicate n '0' ++ c) = c :=
    List.drop_left' (List.length_replicate n '0')
  have e7 : (List.replicate n '0').isEmpty = false := by
    rw [List.isEmpty_eq_false]
    intro hnil
    have := congrArg List.length hnil
    simp at this
    omega
  have e8 : (List.replicate n '0').all (fun x => x = '0') = true := by
    rw [List.all_eq_true]
    intro x hx
    simp [List.mem_replicate] at hx
    simp [hx.2]
  have hval13 : eanValidF (1 + 1) c = true := by
    rw [eanValidF_of_len13 1 c hlen, ← eanValidF_of_len13 2 c hlen]
    exact hval
  show eanValidF (2 + 1) (List.replicate n '0' ++ c) = true
  simp only [eanValidF, if_neg e1, if_neg e2, if_pos e3, e4, e5, e6, e7, e8,
    Bool.not_false, Bool.true_and, if_pos]
  exact hval13

theorem leading_zeros_preserve_validity_witness :
    ean_is_valid (List.replicate 2 '0' ++ "4065418448246".toList) = true :=
  leading_zeros_preserve_validity "4065418448246".toList
    (by decide) (by decide) (by decide) 2 (by decide)

/-- Claim C6: tokenizing `x,y` with no trailing newline yields exactly the
row `["x","y"]` and then exhaustion; tokenizing `x,y\n` yields `["x","y"]`
followed by exactly one empty row and then exhaustion. -/
theorem tokenizer_end_of_stream :
    rows "x,y".toList = [["x", "y"]] ∧
      rows "x,y\n".toList = [["x", "y"], []] := by
  exact ⟨by decide, by decide⟩

/-- Claim C7: when no first-row field strips to the expected column name but
the stripped first field is a valid EAN, the locator returns column 0
together with an initial valid count of 1; concretely the headerless input
`4065418448246,X,10\n` prints `1 0`. -/
theorem headerless_fallback_column_zero :
    (∀ (fields : List String) (d name : String), fields ≠ [] →
        (∀ f ∈ fields, pyStripS f ≠ name) →
        ean_is_valid (pyStripS (fields.headD "")).data = true →
        get_ean_column_index fields d name = (some 0, 1)) ∧
      process_stdin "," "ean" "4065418448246,X,10\n".toList = ("1 0", 0) := by
  constructor
  · intro fields d name _ hnm hv
    unfold get_ean_column_index
    rw [eanIdxLoop_no_match fields name 0 none hnm]
    show (if ean_is_valid (pyStripS (fields.headD "")).data
        then ((some 0, 1) : Option Nat × Nat) else (none, 0)) = (some 0, 1)
    rw [hv]
    rfl
  · decide

theorem headerless_fallback_column_zero_witness :
    get_ean_column_index ["4065418448246", "X", "10"] "," "ean" = (some 0, 1) :=
  headerless_fallback_column_zero.1 ["4065418448246", "X", "10"] "," "ean"
    (by decide) (by decide) (by decide)

/-- Claim C8: with more than one first-row field stripping to the expected
column name the locator reports the column absent, and the program
short-circuits to the line `0 0` with exit status 0 — no error surface. -/
theorem duplicate_header_short_circuit :
    (∀ (fields : List String) (d name : String),
        2 ≤ fields.countP (fun f => pyStripS f == name) →
        get_ean_column_index fields d name = (none, 0)) ∧
      process_stdin "," "ean"
        "name,ean,ean,price\nA,4065418448246,10\n".toList = ("0 0", 0) := by
  constructor
  · intro fields d name h
    unfold get_ean_column_index
    rw [eanIdxLoop_dup_of_two fields name 0 h]
  · decide

theorem duplicate_header_short_circuit_witness :
    get_ean_column_index ["name", "ean", "ean", "price"] "," "ean" = (none, 0) :=
  duplicate_header_short_circuit.1 ["name", "ean", "ean", "price"] "," "ean"
    (by decide)

/-- Claim C9: a row with at most `ean_column_index` fields is classified
invalid by `line_is_valid` (no error, no abort); concretely the short data
row `z` under header `name,ean` is counted invalid, printing `0 1`. -/
theorem short_row_invalid :
    (∀ (fields : List String) (d : String) (i : Nat), fields.length ≤ i →
        line_is_valid fields d i = false) ∧
      process_stdin "," "ean" "name,ean\nz\n".toList = ("0 1", 0) := by
  constructor
  · intro fields d i h
    unfold line_is_valid
    rw [if_pos h]
  · decide

theorem short_row_invalid_witness : line_is_valid ["z"] "," 1 = false :=
  short_row_invalid.1 ["z"] "," 1 (by decide)

/-- Claim C10: no row emitted by the tokenizer ever contains an empty-string
field — an empty accumulated field at a delimiter or newline is suppressed —
so consecutive, leading and trailing delimiters contribute no field and the
later fields shift left, as on `a,,b,\n,c`. -/
theorem no_empty_fields_emitted :
    (∀ (input : List Char) (r : List String), r ∈ rows input →
        ∀ f ∈ r, f ≠ "") ∧
      rows "a,,b,\n,c".toList = [["a", "b"], ["c"]] := by
  constructor
  · intro input r hr f hf
    exact rowsAuxF_ne (input.length + 1) input false false r hr f hf
  · decide

theorem no_empty_fields_emitted_witness : ("x" : String) ≠ "" :=
  no_empty_fields_emitted.1 "x,y".toList ["x", "y"] (by decide) "x" (by decide)

end EanMain
